import Mathlib

/-
Verification development for the Lifty frontend upload/feedback controller
(src/frontend/src/pages/index.tsx).

The page is a single React component.  We embed it in two layers:

1. A JSON value type and a pure rendering function for the feedback section,
   mirroring the JSX that displays the backend response (the section guard,
   the summary block with its || 0 defaults, the optional recommendations
   block, the per-rep blocks with the score color band, and the legacy
   flat-list fallback).  Rendering is modelled in the Except monad: a
   JavaScript TypeError (calling .map on a non-array) becomes .error.

2. A state machine for the component state
   (file, uploading, feedback, videoUrl, progress, selectedExercise) driven
   by events: file selection, exercise change, submit click, response
   settlement, progress-estimator tick, and the delayed progress reset.
   Object URLs are modelled by a fresh-token counter; the list of currently
   live (created and not yet revoked) URLs and the ordered trace of
   create/revoke operations are carried in the state so resource-lifecycle
   claims can be stated.  The useEffect cleanup keyed on videoUrl is applied
   after each event handler (commitEffect), matching the React commit.
-/

/-- JSON-like values as decoded from the backend response body. -/
inductive JVal where
  | null
  | bool (b : Bool)
  | num (n : Int)
  | str (s : String)
  | arr (xs : List JVal)
  | obj (fields : List (String × JVal))

/-- JavaScript truthiness of a value (undefined is modelled as null). -/
def truthy : JVal → Bool
  | .null => false
  | .bool b => b
  | .num n => n != 0
  | .str s => s != ""
  | .arr _ => true
  | .obj _ => true

/-- First-match association lookup in an object field list. -/
def lookupF : List (String × JVal) → String → Option JVal
  | [], _ => none
  | (k, v) :: rest, key => if k = key then some v else lookupF rest key

/-- Property access a.k: undefined (here: null) on missing keys and on
non-object values. -/
def getProp : JVal → String → JVal
  | .obj fs, key => (lookupF fs key).getD .null
  | _, _ => .null

/-- JavaScript a || b. -/
def jsOr (a b : JVal) : JVal := if truthy a then a else b

/-- Array.isArray. -/
def JVal.isArr : JVal → Bool
  | .arr _ => true
  | _ => false

/-- Length of an array value, 0 otherwise. -/
def JVal.arrLen : JVal → Nat
  | .arr xs => xs.length
  | _ => 0

/-- Object.keys (empty for non-objects). -/
def objKeys : JVal → List String
  | .obj fs => fs.map Prod.fst
  | _ => []

/-- Object.entries (empty for non-objects). -/
def objEntries : JVal → List (String × JVal)
  | .obj fs => fs
  | _ => []

/-- JavaScript comparison v >= n for the numeric values that occur in the
score positions; comparisons against non-numbers are false (as with NaN). -/
def jsGE (j : JVal) (n : Int) : Bool :=
  match j with
  | .num m => decide (n ≤ m)
  | _ => false

/-- Model of s.charAt(0).toUpperCase() + s.slice(1). -/
def capFirst (s : String) : String :=
  match s.data with
  | [] => ""
  | c :: rest => String.mk (c.toUpper :: rest)

/-- Severity color band of a rep score block:
rep.score >= 80 green, rep.score >= 60 yellow, otherwise red. -/
inductive Tier where
  | good
  | caution
  | concern
deriving DecidableEq

/-- Tier selected by the nested conditional on rep.score. -/
def scoreTier (s : JVal) : Tier :=
  if jsGE s 80 then .good else if jsGE s 60 then .caution else .concern

/-- Display model of one per-rep block. -/
structure RepBlock where
  repIndex : JVal
  score : JVal
  tier : Tier
  bullets : List JVal
  metrics : Option (List (String × JVal))

/-- Display model of the summary block (always rendered inside the feedback
section). -/
structure SummaryBlock where
  exercise : String
  reps : JVal
  score : JVal
  recommendations : Option (List JVal)

/-- Body of the feedback section: structured per-rep blocks or the legacy
flat bullet list. -/
inductive FeedbackBody where
  | perRep (blocks : List RepBlock)
  | legacy (bullets : List JVal)

/-- The whole rendered feedback section. -/
structure RenderedSection where
  summary : SummaryBlock
  body : FeedbackBody

/-- Structural mapM over Except used by the renderers. -/
def mapE (f : α → Except String β) : List α → Except String (List β)
  | [] => .ok []
  | a :: as =>
    match f a with
    | .error e => .error e
    | .ok b =>
      match mapE f as with
      | .error e => .error e
      | .ok bs => .ok (b :: bs)

/-- Boolean success test for Except. -/
def isOkE : Except String α → Bool
  | .ok _ => true
  | .error _ => false

/-- Rendering of one element of feedback.feedback_per_rep: the header reads
rep.rep and rep.score (banding via scoreTier), the body calls
rep.feedback.map — a TypeError when rep.feedback is not an array — and the
metrics box is shown when rep.metrics is truthy with at least one key. -/
def renderRep (rep : JVal) : Except String RepBlock :=
  match getProp rep "feedback" with
  | .arr items =>
    .ok { repIndex := getProp rep "rep"
          score := getProp rep "score"
          tier := scoreTier (getProp rep "score")
          bullets := items
          metrics :=
            if truthy (getProp rep "metrics")
                && decide (0 < (objKeys (getProp rep "metrics")).length) then
              some (objEntries (getProp rep "metrics"))
            else none }
  | _ => .error "TypeError: rep.feedback.map is not a function"

/-- Recommendations block: guarded by feedback.summary?.recommendations being
truthy, then iterated with .map (TypeError on a truthy non-array). -/
def recsOf (fb : JVal) : Except String (Option (List JVal)) :=
  if truthy (getProp (getProp fb "summary") "recommendations") then
    match getProp (getProp fb "summary") "recommendations" with
    | .arr xs => .ok (some xs)
    | _ => .error "TypeError: recommendations.map is not a function"
  else .ok none

/-- Section body: feedback.feedback_per_rep ? per-rep blocks : legacy
feedback.map fallback. -/
def bodyOf (fb : JVal) : Except String FeedbackBody :=
  if truthy (getProp fb "feedback_per_rep") then
    match getProp fb "feedback_per_rep" with
    | .arr reps =>
      match mapE renderRep reps with
      | .error e => .error e
      | .ok blocks => .ok (.perRep blocks)
    | _ => .error "TypeError: feedback.feedback_per_rep.map is not a function"
  else
    match fb with
    | .arr items => .ok (.legacy items)
    | _ => .error "TypeError: feedback.map is not a function"

/-- The render guard of the feedback section:
feedback && (feedback.feedback_per_rep || (Array.isArray(feedback) && feedback.length > 0)). -/
def shouldRenderFeedback (fb : JVal) : Bool :=
  truthy fb
    && (truthy (getProp fb "feedback_per_rep")
        || (fb.isArr && decide (0 < fb.arrLen)))

/-- Rendering of the feedback section for a normalized response value:
none when the guard rejects the value (the section is entirely absent),
otherwise the summary (with reps_detected || 0 and overall_score || 0
defaults and the optional recommendations block) together with the body.
Errors model thrown TypeErrors. -/
def renderFeedbackSection (sel : String) (fb : JVal) :
    Except String (Option RenderedSection) :=
  if shouldRenderFeedback fb then
    match recsOf fb with
    | .error e => .error e
    | .ok recs =>
      match bodyOf fb with
      | .error e => .error e
      | .ok body =>
        .ok (some
          { summary :=
              { exercise := capFirst sel
                reps := jsOr (getProp fb "reps_detected") (JVal.num 0)
                score := jsOr (getProp fb "overall_score") (JVal.num 0)
                recommendations := recs }
            body := body })
  else .ok none

/-- Left-factor test on character lists. -/
def listIsPre : List Char → List Char → Bool
  | [], _ => true
  | _ :: _, [] => false
  | a :: as, b :: bs => (a == b) && listIsPre as bs

/-- Substring occurrence test on character lists. -/
def listHasSub (n : List Char) : List Char → Bool
  | [] => listIsPre n []
  | c :: t => listIsPre n (c :: t) || listHasSub n t

/-- Model of message.includes("timestamp"). -/
def hasTimestampMsg (m : String) : Bool := listHasSub "timestamp".data m.data

/-- MediaError as reported by the playback surface. -/
structure MediaErr where
  code : Nat
  message : String

/-- The five lifecycle/error observers the rebind copies from the old
surface (onerror, onloadstart, onloadedmetadata, oncanplay, onloadeddata),
modelled as opaque handler identities. -/
structure Observers where
  onerror : Nat
  onloadstart : Nat
  onloadedmetadata : Nat
  oncanplay : Nat
  onloadeddata : Nat

/-- A playback surface (video element) and the attributes the rebind sets. -/
structure PlaybackSurface where
  src : Nat
  observers : Observers
  controls : Bool
  preloadMeta : Bool
  muted : Bool
  playsInline : Bool

/-- Outcome of the onError handler: how many rebinds were performed, whether
the old surface was discarded, the fresh surface if one was constructed, and
whether the error was logged to observability output. -/
structure ErrOutcome where
  rebinds : Nat
  removedOld : Bool
  fresh : Option PlaybackSurface
  logged : Bool

/-- The video onError handler: always logs the error details; when
video.error.code === 4 and the message includes "timestamp" it removes the
element and appends a fresh video bound to the same videoUrl with the same
five observers reattached; otherwise it does nothing further. -/
def onVideoError (videoUrl : Nat) (v : PlaybackSurface) (e : MediaErr) :
    ErrOutcome :=
  if e.code == 4 && hasTimestampMsg e.message then
    { rebinds := 1
      removedOld := true
      fresh := some
        { src := videoUrl
          observers := v.observers
          controls := true
          preloadMeta := true
          muted := true
          playsInline := true }
      logged := true }
  else
    { rebinds := 0, removedOld := false, fresh := none, logged := true }

/-- A selected file (opaque binary blob with its name). -/
structure FileV where
  name : String
deriving DecidableEq

/-- The five option values of the exercise select element. -/
inductive Exercise where
  | squat
  | deadlift
  | pushup
  | plank
  | lunge
deriving DecidableEq

/-- Option value string of an exercise. -/
def Exercise.val : Exercise → String
  | .squat => "squat"
  | .deadlift => "deadlift"
  | .pushup => "pushup"
  | .plank => "plank"
  | .lunge => "lunge"

/-- The closed set of exercise category values offered by the select. -/
def exerciseValues : List String :=
  ["squat", "deadlift", "pushup", "plank", "lunge"]

/-- Session status abstraction of the submission lifecycle. -/
inductive UStatus where
  | idle
  | inflight
  | succeeded
  | failed
deriving DecidableEq

/-- Object-URL resource operations, in execution order. -/
inductive ResOp where
  | create (u : Nat)
  | revoke (u : Nat)
deriving DecidableEq

/-- A multipart form value. -/
inductive FormValue where
  | file (f : FileV)
  | text (s : String)
deriving DecidableEq

/-- An issued network request: method and multipart body fields in append
order. -/
structure Request where
  method : String
  body : List (String × FormValue)
deriving DecidableEq

/-- Component state of the page, extended with instrumentation: nextUrl is
the fresh object-URL counter, live the URLs created and not yet revoked,
ops the ordered create/revoke trace, requests the issued requests, and
pendingReset whether the 1s progress-reset timer is armed. -/
structure AppState where
  file : Option FileV
  uploading : Bool
  feedback : JVal
  videoUrl : Option Nat
  progress : ℚ
  selectedExercise : String
  status : UStatus
  intervalRunning : Bool
  pendingReset : Bool
  nextUrl : Nat
  live : List Nat
  ops : List ResOp
  requests : List Request

/-- Initial component state. -/
def initState : AppState :=
  { file := none
    uploading := false
    feedback := JVal.arr []
    videoUrl := none
    progress := 0
    selectedExercise := "squat"
    status := .idle
    intervalRunning := false
    pendingReset := false
    nextUrl := 0
    live := []
    ops := []
    requests := [] }

/-- URL.revokeObjectURL u (recorded in the trace; removing a URL that is not
live is a no-op on the live list). -/
def revokeUrl (s : AppState) (u : Nat) : AppState :=
  { s with live := s.live.erase u, ops := s.ops ++ [ResOp.revoke u] }

/-- The onChange handler of the file input: revoke the previous videoUrl via
cleanupVideoUrl, adopt the candidate file, and when it is non-null clear
videoUrl, feedback and progress. -/
def selectFileCore (s : AppState) (cand : Option FileV) : AppState :=
  let s1 := match s.videoUrl with
    | some u => revokeUrl s u
    | none => s
  let s2 := { s1 with file := cand }
  match cand with
  | some _ =>
    { s2 with videoUrl := none, feedback := JVal.arr [], progress := 0 }
  | none => s2

/-- The onChange handler of the exercise select: adopt the value and clear
feedback, videoUrl and progress. -/
def changeExerciseCore (s : AppState) (v : Exercise) : AppState :=
  { s with selectedExercise := Exercise.val v
           feedback := JVal.arr []
           videoUrl := none
           progress := 0 }

/-- The body of handleUpload up to the await: the null-file guard, then
uploading := true, progress := 0, the estimator started, and the POST with
the multipart fields ("file", file) and ("exercise_type", selectedExercise)
issued. -/
def handleUploadStart (s : AppState) : AppState :=
  match s.file with
  | none => s
  | some f =>
    { s with uploading := true
             progress := 0
             intervalRunning := true
             status := .inflight
             requests := s.requests ++
               [{ method := "POST"
                  body := [("file", FormValue.file f),
                           ("exercise_type", FormValue.text s.selectedExercise)] }] }

/-- A click on the submit button: the button carries
disabled = !file || uploading, so a click reaches handleUpload only
otherwise. -/
def clickSubmit (s : AppState) : AppState :=
  if s.file.isNone || s.uploading then s else handleUploadStart s

/-- One estimator tick on the stored progress:
prev >= 90 gives 90, otherwise min(90, prev + increment). -/
def tickFn (p r : ℚ) : ℚ := if 90 ≤ p then 90 else min 90 (p + r)

/-- A random increment Math.random() * 15 of one estimator tick. -/
def RandInc : Type := { r : ℚ // 0 ≤ r ∧ r < 15 }

/-- Settlement of the issued request. -/
inductive Outcome where
  | httpErr
  | transportErr
  | success (data : JVal)

/-- Resumption of handleUpload when the fetch settles (only meaningful while
a request is in flight).  On !res.ok: uploading := false, progress := 0,
estimator cleared, early return.  On a thrown transport error: progress := 0
in catch, then the finally block.  On success: feedback := data || [],
a fresh object URL is created for the file, videoUrl adopts it,
progress := 100, the 1s reset timer is armed, and the finally block clears
uploading and the estimator. -/
def settleUpload (s : AppState) (o : Outcome) : AppState :=
  if s.uploading then
    match o with
    | .httpErr =>
      { s with uploading := false
               progress := 0
               intervalRunning := false
               status := .failed }
    | .transportErr =>
      { s with progress := 0
               uploading := false
               intervalRunning := false
               status := .failed }
    | .success data =>
      { s with feedback := jsOr data (JVal.arr [])
               live := s.live ++ [s.nextUrl]
               ops := s.ops ++ [ResOp.create s.nextUrl]
               nextUrl := s.nextUrl + 1
               videoUrl := some s.nextUrl
               progress := 100
               pendingReset := true
               uploading := false
               intervalRunning := false
               status := .succeeded }
  else s

/-- Firing of the armed setTimeout(() => setProgress(0), 1000). -/
def fireResetEv (s : AppState) : AppState :=
  if s.pendingReset then { s with progress := 0, pendingReset := false } else s

/-- Delay in milliseconds of the progress reset timer. -/
def progressResetDelayMs : Nat := 1000

/-- Period in milliseconds of the progress estimator. -/
def progressTickMs : Nat := 200

/-- The cleanup of the useEffect keyed on videoUrl: when the committed state
carries a different videoUrl than the previous render, the previous effect
cleanup runs with its closed-over videoUrl and revokes it. -/
def commitEffect (old : Option Nat) (s : AppState) : AppState :=
  match old with
  | none => s
  | some u => if s.videoUrl = some u then s else revokeUrl s u

/-- Events driving the component. -/
inductive Event where
  | select (cand : Option FileV)
  | changeEx (v : Exercise)
  | click
  | settle (o : Outcome)
  | tick (r : RandInc)
  | fireReset

/-- One event: the handler followed by the React commit of the videoUrl
effect. -/
def stepEv (s : AppState) (e : Event) : AppState :=
  match e with
  | .select cand => commitEffect s.videoUrl (selectFileCore s cand)
  | .changeEx v => commitEffect s.videoUrl (changeExerciseCore s v)
  | .click => commitEffect s.videoUrl (clickSubmit s)
  | .settle o => commitEffect s.videoUrl (settleUpload s o)
  | .tick r =>
    if s.intervalRunning then { s with progress := tickFn s.progress r.val }
    else s
  | .fireReset => fireResetEv s

/-- Run of an event list from a state. -/
def runEv (s : AppState) : List Event → AppState
  | [] => s
  | e :: es => runEv (stepEv s e) es

/-- Teardown of the owning view: the unmount cleanup of the videoUrl effect
revokes the current videoUrl. -/
def unmountCleanup (s : AppState) : AppState :=
  match s.videoUrl with
  | some u => revokeUrl s u
  | none => s

/-- Every list whose elements all map to .ok maps to .ok under mapE. -/
lemma mapE_ok_of_all {f : α → Except String β} :
    ∀ {l : List α}, (∀ a ∈ l, isOkE (f a) = true) →
    ∃ bs, mapE f l = .ok bs := by
  intro l
  induction l with
  | nil => intro _; exact ⟨[], rfl⟩
  | cons a as ih =>
    intro h
    have ha : isOkE (f a) = true := h a (by simp)
    obtain ⟨bs, hbs⟩ := ih (fun x hx => h x (by simp [hx]))
    cases hfa : f a with
    | error e => rw [hfa] at ha; simp [isOkE] at ha
    | ok b => exact ⟨b :: bs, by simp [mapE, hfa, hbs]⟩

/-- Sample structured input with no reps_detected, no overall_score and no
summary field. -/
def c3DefaultsInput : JVal :=
  JVal.obj [("feedback_per_rep", JVal.arr
    [JVal.obj [("rep", JVal.num 1), ("score", JVal.num 70),
               ("feedback", JVal.arr [JVal.str "note"])]])]

/-- Sample structured input whose single finding has no feedback (notes)
field. -/
def c3MissingNotes : JVal :=
  JVal.obj [("feedback_per_rep", JVal.arr
    [JVal.obj [("rep", JVal.num 1), ("score", JVal.num 50)]])]

/-- Sample finding used to witness the notes hypothesis of C3. -/
def c3NoteRep : JVal :=
  JVal.obj [("rep", JVal.num 1), ("score", JVal.num 70),
            ("feedback", JVal.arr [JVal.str "note"])]

/-- C3 counterexample: a StructuredFeedback response whose finding has no
notes (feedback) field makes rendering throw — the notes field is not
defaulted to an empty sequence. -/
theorem c3_notes_counterexample :
    isOkE (renderFeedbackSection "squat" c3MissingNotes) = false ∧
    renderFeedbackSection "squat" c3MissingNotes =
      .error "TypeError: rep.feedback.map is not a function" :=
  ⟨rfl, rfl⟩

/-- C3 (amended): when the normalizer classifies a response as
StructuredFeedback, missing reps_detected and overall_score default to 0 and
a missing recommendations field renders no recommendation block; a finding
whose notes (feedback) field is absent is NOT defaulted — rendering throws on
it — and rendering never throws provided every finding carries a notes
sequence and the recommendations value, when truthy, is a sequence. -/
theorem c3_structured_defaults :
    renderFeedbackSection "squat" c3DefaultsInput =
      .ok (some ⟨⟨"Squat", JVal.num 0, JVal.num 0, none⟩,
        .perRep [⟨JVal.num 1, JVal.num 70, Tier.caution,
                  [JVal.str "note"], none⟩]⟩) ∧
    (∀ rep bs, getProp rep "feedback" = JVal.arr bs →
      isOkE (renderRep rep) = true) ∧
    (∀ sel fb reps, getProp fb "feedback_per_rep" = JVal.arr reps →
      (∀ r ∈ reps, ∃ bs, getProp r "feedback" = JVal.arr bs) →
      (truthy (getProp (getProp fb "summary") "recommendations") = true →
        ∃ xs, getProp (getProp fb "summary") "recommendations" = JVal.arr xs) →
      isOkE (renderFeedbackSection sel fb) = true) := by
  refine ⟨rfl, ?_, ?_⟩
  · intro rep bs h
    simp only [renderRep]
    rw [h]
    simp [isOkE]
  · intro sel fb reps hper hall hrec
    have htr : truthy fb = true := by
      cases fb <;> simp [getProp] at hper <;> simp [truthy]
    have hguard : shouldRenderFeedback fb = true := by
      simp only [shouldRenderFeedback]
      rw [hper, htr]
      rfl
    have hbody : ∃ bd, bodyOf fb = .ok bd := by
      have hok : ∀ r ∈ reps, isOkE (renderRep r) = true := by
        intro r hr
        obtain ⟨bs, hbs⟩ := hall r hr
        simp only [renderRep]
        rw [hbs]
        simp [isOkE]
      obtain ⟨blocks, hblocks⟩ := mapE_ok_of_all hok
      refine ⟨.perRep blocks, ?_⟩
      simp only [bodyOf]
      rw [hper]
      simp [truthy, hblocks]
    have hrecs : ∃ rr, recsOf fb = .ok rr := by
      by_cases htc : truthy (getProp (getProp fb "summary") "recommendations") = true
      · obtain ⟨xs, hxs⟩ := hrec htc
        refine ⟨some xs, ?_⟩
        simp only [recsOf]
        rw [hxs]
        simp [truthy]
      · refine ⟨none, ?_⟩
        simp only [recsOf]
        simp [htc]
    obtain ⟨bd, hbd⟩ := hbody
    obtain ⟨rr, hrr⟩ := hrecs
    simp [renderFeedbackSection, hguard, hbd, hrr, isOkE]

/-- C3 witness: the general no-throw clauses of c3_structured_defaults hold
at concrete inputs. -/
theorem c3_structured_defaults_witness :
    isOkE (renderRep c3NoteRep) = true ∧
    isOkE (renderFeedbackSection "squat" c3DefaultsInput) = true :=
  ⟨c3_structured_defaults.2.1 c3NoteRep [JVal.str "note"] rfl,
   c3_structured_defaults.2.2 "squat" c3DefaultsInput [c3NoteRep]
     rfl
     (by intro r hr
         simp only [List.mem_singleton] at hr
         subst hr
         exact ⟨[JVal.str "note"], rfl⟩)
     (by intro h; exact absurd h (by decide))⟩

/-- One-element legacy response. -/
def c4LegacyOne : JVal := JVal.arr [JVal.str "fix your knees"]

/-- First finding of the C4 structured input. -/
def c4Rep1 : JVal :=
  JVal.obj [("rep", JVal.num 1), ("score", JVal.num 90),
            ("feedback", JVal.arr [JVal.str "good depth"]),
            ("metrics", JVal.obj [("knee_angle", JVal.num 92)])]

/-- Second finding of the C4 structured input. -/
def c4Rep2 : JVal :=
  JVal.obj [("rep", JVal.num 2), ("score", JVal.num 72),
            ("feedback", JVal.arr [JVal.str "slight lean"]),
            ("metrics", JVal.obj [])]

/-- Third finding of the C4 structured input. -/
def c4Rep3 : JVal :=
  JVal.obj [("rep", JVal.num 3), ("score", JVal.num 55),
            ("feedback", JVal.arr []), ("metrics", JVal.obj [])]

/-- Structured response with three findings (field names as on the wire:
reps_detected, overall_score, feedback_per_rep). -/
def c4Structured : JVal :=
  JVal.obj [("reps_detected", JVal.num 3), ("overall_score", JVal.num 72),
            ("feedback_per_rep", JVal.arr [c4Rep1, c4Rep2, c4Rep3])]

/-- C4: the empty array and the empty object render no feedback section, the
one-element string array renders exactly one bullet, the structured object
renders a summary plus three per-rep blocks, and any shape that is neither a
nonempty array nor an object with a truthy feedback_per_rep field renders
nothing and never throws. -/
theorem c4_normalize_render :
    renderFeedbackSection "squat" (JVal.arr []) = .ok none ∧
    renderFeedbackSection "squat" c4LegacyOne =
      .ok (some ⟨⟨"Squat", JVal.num 0, JVal.num 0, none⟩,
        .legacy [JVal.str "fix your knees"]⟩) ∧
    renderFeedbackSection "squat" c4Structured =
      .ok (some ⟨⟨"Squat", JVal.num 3, JVal.num 72, none⟩, .perRep
        [⟨JVal.num 1, JVal.num 90, Tier.good, [JVal.str "good depth"],
          some [("knee_angle", JVal.num 92)]⟩,
         ⟨JVal.num 2, JVal.num 72, Tier.caution, [JVal.str "slight lean"],
          none⟩,
         ⟨JVal.num 3, JVal.num 55, Tier.concern, [], none⟩]⟩) ∧
    renderFeedbackSection "squat" (JVal.obj []) = .ok none ∧
    (∀ sel fb, truthy (getProp fb "feedback_per_rep") = false →
      fb.isArr = false ∨ fb.arrLen = 0 →
      renderFeedbackSection sel fb = .ok none) := by
  refine ⟨rfl, rfl, rfl, rfl, ?_⟩
  intro sel fb h1 h2
  have hg : shouldRenderFeedback fb = false := by
    rcases h2 with h | h <;> simp [shouldRenderFeedback, h1, h]
  simp [renderFeedbackSection, hg]

/-- C4 witness: the any-other-shape clause of c4_normalize_render holds at a
concrete non-array, non-structured value. -/
theorem c4_normalize_render_witness :
    renderFeedbackSection "squat" (JVal.str "weird") = .ok none :=
  c4_normalize_render.2.2.2.2 "squat" (JVal.str "weird") rfl (Or.inl rfl)

/-- First finding of the section 8 scenario (score 90). -/
def scenRep1 : JVal :=
  JVal.obj [("rep", JVal.num 1), ("score", JVal.num 90),
            ("feedback", JVal.arr [JVal.str "good depth"]),
            ("metrics", JVal.obj [("kneeAngle", JVal.num 92)])]

/-- Second finding of the section 8 scenario (score 80). -/
def scenRep2 : JVal :=
  JVal.obj [("rep", JVal.num 2), ("score", JVal.num 80),
            ("feedback", JVal.arr [JVal.str "slight lean"]),
            ("metrics", JVal.obj [])]

/-- C9 counterexample: the scenario rep with score 80 renders the good tier
(rep.score >= 80 selects the green band), not the caution tier the claim
assigns it. -/
theorem c9_scenario_counterexample :
    renderRep scenRep2 =
      .ok ⟨JVal.num 2, JVal.num 80, Tier.good, [JVal.str "slight lean"],
           none⟩ ∧
    Tier.good ≠ Tier.caution :=
  ⟨rfl, by decide⟩

/-- C9 (amended): the severity tier is a pure function of the score with
fixed thresholds — score at least 80 renders good, 60 to 79 caution, below
60 concern — and in the section 8 scenario the rep with score 90 and the rep
with score 80 both render the good tier. -/
theorem c9_tier_thresholds :
    (∀ n : Int,
      (80 ≤ n → scoreTier (JVal.num n) = Tier.good) ∧
      (60 ≤ n → n < 80 → scoreTier (JVal.num n) = Tier.caution) ∧
      (n < 60 → scoreTier (JVal.num n) = Tier.concern)) ∧
    renderRep scenRep1 =
      .ok ⟨JVal.num 1, JVal.num 90, Tier.good, [JVal.str "good depth"],
           some [("kneeAngle", JVal.num 92)]⟩ ∧
    renderRep scenRep2 =
      .ok ⟨JVal.num 2, JVal.num 80, Tier.good, [JVal.str "slight lean"],
           none⟩ := by
  refine ⟨?_, rfl, rfl⟩
  intro n
  refine ⟨?_, ?_, ?_⟩
  · intro h; simp [scoreTier, jsGE, h]
  · intro h1 h2
    have h80 : ¬ (80 ≤ n) := by omega
    simp [scoreTier, jsGE, h80, h1]
  · intro h
    have h80 : ¬ (80 ≤ n) := by omega
    have h60 : ¬ (60 ≤ n) := by omega
    simp [scoreTier, jsGE, h80, h60]

/-- C9 witness: the threshold clauses of c9_tier_thresholds evaluated at 85,
65 and 30. -/
theorem c9_tier_thresholds_witness :
    scoreTier (JVal.num 85) = Tier.good ∧
    scoreTier (JVal.num 65) = Tier.caution ∧
    scoreTier (JVal.num 30) = Tier.concern :=
  ⟨(c9_tier_thresholds.1 85).1 (by norm_num),
   (c9_tier_thresholds.1 65).2.1 (by norm_num) (by norm_num),
   (c9_tier_thresholds.1 30).2.2 (by norm_num)⟩

/-- C8: a playback error with code 4 and a timestamp message performs
exactly one rebind — the surface is discarded and a fresh one constructed
bound to the same handle with the same observers reattached — while an error
with an unrelated code performs zero rebinds and is only logged. -/
theorem c8_rebind :
    ∀ (url : Nat) (v : PlaybackSurface) (e : MediaErr),
      (e.code = 4 → hasTimestampMsg e.message = true →
        onVideoError url v e =
          { rebinds := 1
            removedOld := true
            fresh := some
              { src := url, observers := v.observers, controls := true,
                preloadMeta := true, muted := true, playsInline := true }
            logged := true }) ∧
      (e.code ≠ 4 →
        onVideoError url v e =
          { rebinds := 0, removedOld := false, fresh := none,
            logged := true }) := by
  intro url v e
  constructor
  · intro h1 h2
    simp [onVideoError, h1, h2]
  · intro h
    have hb : (e.code == 4) = false := by simpa using h
    simp [onVideoError, hb]

/-- Timestamp-fault media error used in the C8 witness. -/
def tsErr : MediaErr := ⟨4, "PIPELINE_ERROR: bad timestamp in container"⟩

/-- Unrelated media error used in the C8 witness. -/
def otherErr : MediaErr := ⟨3, "PIPELINE_ERROR_DECODE"⟩

/-- Observer identities used in the C8 witness. -/
def demoObs : Observers := ⟨1, 2, 3, 4, 5⟩

/-- Surface used in the C8 witness. -/
def demoSurface : PlaybackSurface := ⟨7, demoObs, true, true, true, true⟩

/-- C8 witness: one rebind on the timestamp error, zero on the unrelated
one, at concrete inputs. -/
theorem c8_rebind_witness :
    onVideoError 7 demoSurface tsErr =
      { rebinds := 1
        removedOld := true
        fresh := some
          { src := 7, observers := demoObs, controls := true,
            preloadMeta := true, muted := true, playsInline := true }
        logged := true } ∧
    onVideoError 7 demoSurface otherErr =
      { rebinds := 0, removedOld := false, fresh := none, logged := true } :=
  ⟨(c8_rebind 7 demoSurface tsErr).1 rfl (by decide),
   (c8_rebind 7 demoSurface otherErr).2 (by decide)⟩

/-- Commit keeps the videoUrl field. -/
lemma commit_videoUrl (o : Option Nat) (s : AppState) :
    (commitEffect o s).videoUrl = s.videoUrl := by
  cases o with
  | none => rfl
  | some u => simp only [commitEffect]; split <;> rfl

/-- Commit keeps the progress field. -/
lemma commit_progress (o : Option Nat) (s : AppState) :
    (commitEffect o s).progress = s.progress := by
  cases o with
  | none => rfl
  | some u => simp only [commitEffect]; split <;> rfl

/-- Commit keeps the status field. -/
lemma commit_status (o : Option Nat) (s : AppState) :
    (commitEffect o s).status = s.status := by
  cases o with
  | none => rfl
  | some u => simp only [commitEffect]; split <;> rfl

/-- Commit keeps the uploading field. -/
lemma commit_uploading (o : Option Nat) (s : AppState) :
    (commitEffect o s).uploading = s.uploading := by
  cases o with
  | none => rfl
  | some u => simp only [commitEffect]; split <;> rfl

/-- Commit keeps the feedback field. -/
lemma commit_feedback (o : Option Nat) (s : AppState) :
    (commitEffect o s).feedback = s.feedback := by
  cases o with
  | none => rfl
  | some u => simp only [commitEffect]; split <;> rfl

/-- Commit keeps the nextUrl field. -/
lemma commit_nextUrl (o : Option Nat) (s : AppState) :
    (commitEffect o s).nextUrl = s.nextUrl := by
  cases o with
  | none => rfl
  | some u => simp only [commitEffect]; split <;> rfl

/-- Commit keeps the requests field. -/
lemma commit_requests (o : Option Nat) (s : AppState) :
    (commitEffect o s).requests = s.requests := by
  cases o with
  | none => rfl
  | some u => simp only [commitEffect]; split <;> rfl

/-- Commit keeps the intervalRunning field. -/
lemma commit_intervalRunning (o : Option Nat) (s : AppState) :
    (commitEffect o s).intervalRunning = s.intervalRunning := by
  cases o with
  | none => rfl
  | some u => simp only [commitEffect]; split <;> rfl

/-- Commit on a state whose videoUrl equals the closed-over one is a no-op
(the effect dependency did not change). -/
lemma commitEffect_eqUrl {o : Option Nat} {s : AppState}
    (h : s.videoUrl = o) : commitEffect o s = s := by
  cases o with
  | none => rfl
  | some u => simp [commitEffect, h]

/-- Commit of an unchanged videoUrl is a no-op. -/
lemma commitEffect_self (s : AppState) : commitEffect s.videoUrl s = s :=
  commitEffect_eqUrl rfl

/-- A list of length at most one whose members all equal u is nil or [u]. -/
lemma live_small {l : List Nat} {u : Nat} (h1 : l.length ≤ 1)
    (h2 : ∀ x ∈ l, x = u) : l = [] ∨ l = [u] := by
  cases l with
  | nil => exact Or.inl rfl
  | cons a t =>
    cases t with
    | nil => exact Or.inr (by rw [h2 a (by simp)])
    | cons b t2 => simp at h1

/-- The estimator tick keeps progress between its old value and 90. -/
lemma tickFn_bounds (p r : ℚ) (h0 : 0 ≤ p) (h1 : p ≤ 90) (hr : 0 ≤ r) :
    p ≤ tickFn p r ∧ 0 ≤ tickFn p r ∧ tickFn p r ≤ 90 := by
  unfold tickFn
  split
  · exact ⟨by linarith, by norm_num, by norm_num⟩
  · refine ⟨le_min (by linarith) (by linarith), ?_, min_le_left _ _⟩
    exact le_min (by norm_num) (by linarith)

/-- Every exercise option value is in the closed category set. -/
lemma exercise_val_mem (v : Exercise) : Exercise.val v ∈ exerciseValues := by
  cases v <;> simp [Exercise.val, exerciseValues]

/-- A well-formed issued request: POST, carrying the binary file and the
exercise_type field with one of the five category values. -/
def goodRequest (r : Request) : Prop :=
  r.method = "POST" ∧
  (∃ f, ("file", FormValue.file f) ∈ r.body) ∧
  (∃ v, ("exercise_type", FormValue.text v) ∈ r.body ∧ v ∈ exerciseValues)

/-- State invariant: at most one live object URL, every live URL is the
current videoUrl, the current videoUrl was produced by the counter, the
estimator runs exactly while a submission is in flight, in-flight progress
stays within [0, 90], the selected category is one of the five option
values, and every issued request is well formed. -/
def StInv (s : AppState) : Prop :=
  s.live.length ≤ 1 ∧
  (∀ x ∈ s.live, s.videoUrl = some x) ∧
  (∀ u, s.videoUrl = some u → u < s.nextUrl) ∧
  s.intervalRunning = s.uploading ∧
  (s.uploading = true → 0 ≤ s.progress ∧ s.progress ≤ 90) ∧
  s.selectedExercise ∈ exerciseValues ∧
  (∀ r ∈ s.requests, goodRequest r)

/-- The initial state satisfies the invariant. -/
lemma inv_init : StInv initState := by
  refine ⟨?_, ?_, ?_, ?_, ?_, ?_, ?_⟩ <;>
    simp [initState, exerciseValues]

/-- With no current videoUrl, no URL is live. -/
lemma live_nil_of_none {s : AppState} (h2 : ∀ x ∈ s.live, s.videoUrl = some x)
    (hv : s.videoUrl = none) : s.live = [] := by
  cases hl : s.live with
  | nil => rfl
  | cons a t =>
    have := h2 a (by rw [hl]; simp)
    rw [hv] at this
    exact absurd this (by simp)

/-- With videoUrl u, erasing u from the live list empties it. -/
lemma live_erase_of_some {s : AppState} {u : Nat}
    (h1 : s.live.length ≤ 1) (h2 : ∀ x ∈ s.live, s.videoUrl = some x)
    (hv : s.videoUrl = some u) : s.live.erase u = [] := by
  have hxu : ∀ x ∈ s.live, x = u := by
    intro x hx
    have := h2 x hx
    rw [hv] at this
    exact (Option.some.inj this).symm
  rcases live_small h1 hxu with hl | hl <;> simp [hl]

/-- Selection preserves the invariant. -/
lemma inv_select (s : AppState) (cand : Option FileV) (h : StInv s) :
    StInv (stepEv s (.select cand)) := by
  obtain ⟨h1, h2, h3, h4, h5, h6, h7⟩ := h
  cases hv : s.videoUrl with
  | none =>
    have hl : s.live = [] := live_nil_of_none h2 hv
    cases cand with
    | none =>
      have hstep : stepEv s (.select none) = { s with file := none } := by
        simp [stepEv, selectFileCore, hv, commitEffect]
      rw [hstep]
      exact ⟨h1, fun x hx => h2 x hx, h3, h4, h5, h6, h7⟩
    | some f =>
      have hstep : stepEv s (.select (some f)) =
          { s with file := some f, videoUrl := none,
                   feedback := JVal.arr [], progress := 0 } := by
        simp [stepEv, selectFileCore, hv, commitEffect]
      rw [hstep]
      refine ⟨h1, ?_, ?_, h4, ?_, h6, h7⟩
      · intro x hx
        simp at hx
        rw [hl] at hx
        simp at hx
      · intro u hu
        simp at hu
      · intro hu
        simp
  | some u =>
    have he : s.live.erase u = [] := live_erase_of_some h1 h2 hv
    cases cand with
    | none =>
      have hstep : stepEv s (.select none) =
          { s with file := none, live := s.live.erase u,
                   ops := s.ops ++ [ResOp.revoke u] } := by
        simp [stepEv, selectFileCore, hv, revokeUrl, commitEffect]
      rw [hstep]
      refine ⟨?_, ?_, ?_, h4, h5, h6, h7⟩
      · simp [he]
      · intro x hx
        simp [he] at hx
      · intro w hw
        simp at hw
        exact h3 w hw
    | some f =>
      have hstep : stepEv s (.select (some f)) =
          { s with file := some f, videoUrl := none,
                   feedback := JVal.arr [], progress := 0,
                   live := (s.live.erase u).erase u,
                   ops := (s.ops ++ [ResOp.revoke u]) ++ [ResOp.revoke u] } := by
        simp [stepEv, selectFileCore, hv, revokeUrl, commitEffect]
      rw [hstep]
      refine ⟨?_, ?_, ?_, h4, ?_, h6, h7⟩
      · simp [he]
      · intro x hx
        simp [he] at hx
      · intro w hw
        simp at hw
      · intro hu
        simp

/-- Category change preserves the invariant. -/
lemma inv_changeEx (s : AppState) (v : Exercise) (h : StInv s) :
    StInv (stepEv s (.changeEx v)) := by
  obtain ⟨h1, h2, h3, h4, h5, h6, h7⟩ := h
  cases hv : s.videoUrl with
  | none =>
    have hstep : stepEv s (.changeEx v) =
        { s with selectedExercise := Exercise.val v,
                 feedback := JVal.arr [], videoUrl := none,
                 progress := 0 } := by
      simp [stepEv, changeExerciseCore, hv, commitEffect]
    rw [hstep]
    have hl : s.live = [] := live_nil_of_none h2 hv
    refine ⟨h1, ?_, ?_, h4, ?_, exercise_val_mem v, h7⟩
    · intro x hx
      simp [hl] at hx
    · intro u hu
      simp at hu
    · intro hu
      simp
  | some u =>
    have he : s.live.erase u = [] := live_erase_of_some h1 h2 hv
    have hstep : stepEv s (.changeEx v) =
        { s with selectedExercise := Exercise.val v,
                 feedback := JVal.arr [], videoUrl := none,
                 progress := 0, live := s.live.erase u,
                 ops := s.ops ++ [ResOp.revoke u] } := by
      simp [stepEv, changeExerciseCore, hv, revokeUrl, commitEffect]
    rw [hstep]
    refine ⟨?_, ?_, ?_, h4, ?_, exercise_val_mem v, h7⟩
    · simp [he]
    · intro x hx
      simp [he] at hx
    · intro w hw
      simp at hw
    · intro hu
      simp

/-- Submit click preserves the invariant. -/
lemma inv_click (s : AppState) (h : StInv s) : StInv (stepEv s .click) := by
  obtain ⟨h1, h2, h3, h4, h5, h6, h7⟩ := h
  by_cases hc : (s.file.isNone || s.uploading) = true
  · have hstep : stepEv s .click = s := by
      simp only [stepEv, clickSubmit]
      rw [if_pos hc]
      exact commitEffect_self s
    rw [hstep]
    exact ⟨h1, h2, h3, h4, h5, h6, h7⟩
  · cases hf : s.file with
    | none =>
      exfalso
      apply hc
      simp [hf]
    | some f =>
      have hstep : stepEv s .click =
          { s with uploading := true, progress := 0,
                   intervalRunning := true, status := .inflight,
                   requests := s.requests ++
                     [{ method := "POST"
                        body := [("file", FormValue.file f),
                                 ("exercise_type",
                                  FormValue.text s.selectedExercise)] }] } := by
        simp only [stepEv, clickSubmit]
        rw [if_neg hc]
        simp only [handleUploadStart, hf]
        exact commitEffect_eqUrl rfl
      rw [hstep]
      refine ⟨h1, h2, h3, rfl, ?_, h6, ?_⟩
      · intro _
        simp
      · intro r hr
        simp at hr
        rcases hr with hr | hr
        · exact h7 r hr
        · subst hr
          refine ⟨rfl, ⟨f, by simp⟩, ⟨s.selectedExercise, by simp, h6⟩⟩

/-- Settlement preserves the invariant. -/
lemma inv_settle (s : AppState) (o : Outcome) (h : StInv s) :
    StInv (stepEv s (.settle o)) := by
  obtain ⟨h1, h2, h3, h4, h5, h6, h7⟩ := h
  cases hu : s.uploading with
  | false =>
    have hstep : stepEv s (.settle o) = s := by
      simp only [stepEv, settleUpload]
      rw [if_neg (by simp [hu])]
      exact commitEffect_self s
    rw [hstep]
    exact ⟨h1, h2, h3, h4, h5, h6, h7⟩
  | true =>
    cases o with
    | httpErr =>
      have hstep : stepEv s (.settle .httpErr) =
          { s with uploading := false, progress := 0,
                   intervalRunning := false, status := .failed } := by
        simp only [stepEv, settleUpload]
        rw [if_pos (by simp [hu])]
        exact commitEffect_eqUrl rfl
      rw [hstep]
      refine ⟨h1, h2, h3, rfl, ?_, h6, h7⟩
      intro hx
      simp at hx
    | transportErr =>
      have hstep : stepEv s (.settle .transportErr) =
          { s with progress := 0, uploading := false,
                   intervalRunning := false, status := .failed } := by
        simp only [stepEv, settleUpload]
        rw [if_pos (by simp [hu])]
        exact commitEffect_eqUrl rfl
      rw [hstep]
      refine ⟨h1, h2, h3, rfl, ?_, h6, h7⟩
      intro hx
      simp at hx
    | success data =>
      cases hv : s.videoUrl with
      | none =>
        have hl : s.live = [] := live_nil_of_none h2 hv
        have hstep : stepEv s (.settle (.success data)) =
            { s with feedback := jsOr data (JVal.arr [])
                     live := s.live ++ [s.nextUrl]
                     ops := s.ops ++ [ResOp.create s.nextUrl]
                     nextUrl := s.nextUrl + 1
                     videoUrl := some s.nextUrl
                     progress := 100
                     pendingReset := true
                     uploading := false
                     intervalRunning := false
                     status := .succeeded } := by
          simp only [stepEv, settleUpload]
          rw [if_pos (by simp [hu]), hv]
          rfl
        rw [hstep]
        refine ⟨?_, ?_, ?_, rfl, ?_, h6, h7⟩
        · simp [hl]
        · intro x hx
          simp [hl] at hx
          simp [hx]
        · intro w hw
          simp at hw ⊢
          omega
        · intro hx
          simp at hx
      | some u =>
        have hlu : u < s.nextUrl := h3 u hv
        have he : s.live.erase u = [] := live_erase_of_some h1 h2 hv
        have hstep : stepEv s (.settle (.success data)) =
            { s with feedback := jsOr data (JVal.arr [])
                     live := (s.live ++ [s.nextUrl]).erase u
                     ops := (s.ops ++ [ResOp.create s.nextUrl]) ++
                       [ResOp.revoke u]
                     nextUrl := s.nextUrl + 1
                     videoUrl := some s.nextUrl
                     progress := 100
                     pendingReset := true
                     uploading := false
                     intervalRunning := false
                     status := .succeeded } := by
          simp only [stepEv, settleUpload]
          rw [if_pos (by simp [hu]), hv]
          simp only [commitEffect]
          rw [if_neg (by simp; omega)]
          rfl
        rw [hstep]
        have hxu : ∀ x ∈ s.live, x = u := by
          intro x hx
          have hx2 := h2 x hx
          rw [hv] at hx2
          exact (Option.some.inj hx2).symm
        have hne : ¬ (s.nextUrl = u) := by omega
        have herase : (s.live ++ [s.nextUrl]).erase u = [s.nextUrl] := by
          rcases live_small h1 hxu with hl | hl
          · simp [hl, List.erase_cons, hne]
          · simp [hl, List.erase_cons]
        refine ⟨?_, ?_, ?_, rfl, ?_, h6, h7⟩
        · simp [herase]
        · intro x hx
          simp only [herase] at hx
          simp at hx
          simp [hx]
        · intro w hw
          simp at hw ⊢
          omega
        · intro hx
          simp at hx

/-- Estimator tick preserves the invariant. -/
lemma inv_tick (s : AppState) (r : RandInc) (h : StInv s) :
    StInv (stepEv s (.tick r)) := by
  obtain ⟨h1, h2, h3, h4, h5, h6, h7⟩ := h
  cases hi : s.intervalRunning with
  | false =>
    have hstep : stepEv s (.tick r) = s := by
      simp [stepEv, hi]
    rw [hstep]
    exact ⟨h1, h2, h3, h4, h5, h6, h7⟩
  | true =>
    have hu : s.uploading = true := by rw [← h4, hi]
    have hb := h5 hu
    have ht := tickFn_bounds s.progress r.val hb.1 hb.2 r.property.1
    have hstep : stepEv s (.tick r) =
        { s with progress := tickFn s.progress r.val } := by
      simp [stepEv, hi]
    rw [hstep]
    refine ⟨h1, h2, h3, h4, ?_, h6, h7⟩
    intro _
    exact ⟨ht.2.1, ht.2.2⟩

/-- Firing of the reset timer preserves the invariant. -/
lemma inv_fireReset (s : AppState) (h : StInv s) :
    StInv (stepEv s .fireReset) := by
  obtain ⟨h1, h2, h3, h4, h5, h6, h7⟩ := h
  by_cases hp : s.pendingReset = true
  · have hstep : stepEv s .fireReset =
        { s with progress := 0, pendingReset := false } := by
      simp [stepEv, fireResetEv, hp]
    rw [hstep]
    refine ⟨h1, h2, h3, h4, ?_, h6, h7⟩
    intro _
    simp
  · have hstep : stepEv s .fireReset = s := by
      simp [stepEv, fireResetEv, hp]
    rw [hstep]
    exact ⟨h1, h2, h3, h4, h5, h6, h7⟩

/-- Every event preserves the invariant. -/
lemma inv_step (s : AppState) (e : Event) (h : StInv s) :
    StInv (stepEv s e) := by
  cases e with
  | select cand => exact inv_select s cand h
  | changeEx v => exact inv_changeEx s v h
  | click => exact inv_click s h
  | settle o => exact inv_settle s o h
  | tick r => exact inv_tick s r h
  | fireReset => exact inv_fireReset s h

/-- Runs preserve the invariant. -/
lemma inv_run (evs : List Event) :
    ∀ s, StInv s → StInv (runEv s evs) := by
  induction evs with
  | nil => intro s h; exact h
  | cons e es ih => intro s h; exact ih (stepEv s e) (inv_step s e h)

/-- Every state reachable from the initial state satisfies the invariant. -/
lemma inv_reach (evs : List Event) : StInv (runEv initState evs) :=
  inv_run evs initState inv_init

/-- Selection never moves the URL counter (no object URL is created on mere
selection). -/
lemma select_nextUrl (s : AppState) (cand : Option FileV) :
    (stepEv s (.select cand)).nextUrl = s.nextUrl := by
  simp only [stepEv]
  rw [commit_nextUrl]
  simp only [selectFileCore]
  cases hv : s.videoUrl <;> cases cand <;> simp [revokeUrl]

/-- Category change never moves the URL counter. -/
lemma changeEx_nextUrl (s : AppState) (v : Exercise) :
    (stepEv s (.changeEx v)).nextUrl = s.nextUrl := by
  simp only [stepEv]
  rw [commit_nextUrl]
  rfl

/-- A submit click never moves the URL counter. -/
lemma click_nextUrl (s : AppState) :
    (stepEv s .click).nextUrl = s.nextUrl := by
  simp only [stepEv]
  rw [commit_nextUrl]
  simp only [clickSubmit, handleUploadStart]
  split
  · rfl
  · split <;> rfl

/-- A failing settlement (non-2xx) never moves the URL counter. -/
lemma settle_http_nextUrl (s : AppState) :
    (stepEv s (.settle .httpErr)).nextUrl = s.nextUrl := by
  simp only [stepEv]
  rw [commit_nextUrl]
  simp only [settleUpload]
  split <;> rfl

/-- A thrown settlement never moves the URL counter. -/
lemma settle_transport_nextUrl (s : AppState) :
    (stepEv s (.settle .transportErr)).nextUrl = s.nextUrl := by
  simp only [stepEv]
  rw [commit_nextUrl]
  simp only [settleUpload]
  split <;> rfl

/-- A tick never moves the URL counter. -/
lemma tick_nextUrl (s : AppState) (r : RandInc) :
    (stepEv s (.tick r)).nextUrl = s.nextUrl := by
  simp only [stepEv]
  split <;> rfl

/-- The reset timer never moves the URL counter. -/
lemma fireReset_nextUrl (s : AppState) :
    (stepEv s .fireReset).nextUrl = s.nextUrl := by
  simp only [stepEv, fireResetEv]
  split <;> rfl

/-- Teardown leaves no live URL in any reachable state. -/
lemma unmount_live_nil (evs : List Event) :
    (unmountCleanup (runEv initState evs)).live = [] := by
  obtain ⟨h1, h2, _, _, _, _, _⟩ := inv_reach evs
  cases hv : (runEv initState evs).videoUrl with
  | none =>
    simp [unmountCleanup, hv, live_nil_of_none h2 hv]
  | some u =>
    simp [unmountCleanup, hv, revokeUrl, live_erase_of_some h1 h2 hv]

/-- A file-selection event leaves no live URL: the handler revokes the
previous videoUrl via cleanupVideoUrl and the effect cleanup revokes it
again once the commit lands. -/
lemma select_live_nil (s : AppState) (h : StInv s) (cand : Option FileV) :
    (stepEv s (.select cand)).live = [] := by
  obtain ⟨h1, h2, _, _, _, _, _⟩ := h
  cases hv : s.videoUrl with
  | none =>
    have hl : s.live = [] := live_nil_of_none h2 hv
    cases cand <;> simp [stepEv, selectFileCore, hv, commitEffect, hl]
  | some u =>
    have he : s.live.erase u = [] := live_erase_of_some h1 h2 hv
    cases cand with
    | none => simp [stepEv, selectFileCore, hv, commitEffect, revokeUrl, he]
    | some f => simp [stepEv, selectFileCore, hv, commitEffect, revokeUrl, he]

/-- A category-change event leaves no live URL: the handler clears videoUrl
and the effect cleanup revokes the previous one. -/
lemma changeEx_live_nil (s : AppState) (h : StInv s) (v : Exercise) :
    (stepEv s (.changeEx v)).live = [] := by
  obtain ⟨h1, h2, _, _, _, _, _⟩ := h
  cases hv : s.videoUrl with
  | none =>
    have hl : s.live = [] := live_nil_of_none h2 hv
    simp [stepEv, changeExerciseCore, hv, commitEffect, hl]
  | some u =>
    have he : s.live.erase u = [] := live_erase_of_some h1 h2 hv
    simp [stepEv, changeExerciseCore, hv, commitEffect, revokeUrl, he]

/-- The file selected in the concrete traces. -/
def clipFile : FileV := ⟨"clip.mp4"⟩

/-- A truthy backend response used in the concrete traces. -/
def okData : JVal := JVal.obj [("reps_detected", JVal.num 2)]

/-- Trace: select, submit, success, submit again, success again. -/
def c1Trace : List Event :=
  [.select (some clipFile), .click, .settle (.success okData),
   .click, .settle (.success okData)]

/-- State after the first four events of c1Trace (one handle live, second
submission in flight). -/
def c1s4 : AppState := runEv initState (c1Trace.take 4)

/-- State after all of c1Trace. -/
def c1s5 : AppState := runEv initState c1Trace

/-- C1 counterexample: with handle 0 still live, the second successful
submission performs create 1 BEFORE revoke 0 — the new handle is acquired
before the previously live one is released (the revocation happens in the
videoUrl effect cleanup after the new URL is stored). -/
theorem c1_acquire_order_counterexample :
    c1s4.live = [0] ∧
    c1s5.ops.drop c1s4.ops.length = [ResOp.create 1, ResOp.revoke 0] ∧
    c1s5.live = [1] := by decide

/-- C1 (amended): after every processed event at most one PreviewHandle is
live; teardown of the owning view releases any live handle; selecting a new
file or changing the category releases the live handle (no URL remains live
after those events, from any reachable state) and acquires no new one
(selection and category change never move the URL counter); and the only
event that creates a handle is a successful upload settlement.  (On a
success that replaces a live handle the old one is released immediately
AFTER the new one is created, within the same event — not before, as the
claim states.) -/
theorem c1_handle_lifecycle :
    (∀ evs, (runEv initState evs).live.length ≤ 1) ∧
    (∀ evs, (unmountCleanup (runEv initState evs)).live = []) ∧
    (∀ evs cand,
      (stepEv (runEv initState evs) (.select cand)).live = []) ∧
    (∀ evs v,
      (stepEv (runEv initState evs) (.changeEx v)).live = []) ∧
    (∀ s cand, (stepEv s (.select cand)).nextUrl = s.nextUrl) ∧
    (∀ s v, (stepEv s (.changeEx v)).nextUrl = s.nextUrl) ∧
    (∀ s e, (stepEv s e).nextUrl ≠ s.nextUrl →
      ∃ d, e = Event.settle (Outcome.success d)) := by
  refine ⟨?_, unmount_live_nil, ?_, ?_, select_nextUrl, changeEx_nextUrl,
          ?_⟩
  · intro evs
    exact (inv_reach evs).1
  · intro evs cand
    exact select_live_nil (runEv initState evs) (inv_reach evs) cand
  · intro evs v
    exact changeEx_live_nil (runEv initState evs) (inv_reach evs) v
  · intro s e hne
    cases e with
    | select cand => exact absurd (select_nextUrl s cand) hne
    | changeEx v => exact absurd (changeEx_nextUrl s v) hne
    | click => exact absurd (click_nextUrl s) hne
    | settle o =>
      cases o with
      | httpErr => exact absurd (settle_http_nextUrl s) hne
      | transportErr => exact absurd (settle_transport_nextUrl s) hne
      | success d => exact ⟨d, rfl⟩
    | tick r => exact absurd (tick_nextUrl s r) hne
    | fireReset => exact absurd (fireReset_nextUrl s) hne

/-- C1 witness: the lifecycle clauses of c1_handle_lifecycle at the concrete
trace (which ends with a live handle, so the release clauses are exercised
on a state that actually holds one). -/
theorem c1_handle_lifecycle_witness :
    (runEv initState c1Trace).live.length ≤ 1 ∧
    (unmountCleanup (runEv initState c1Trace)).live = [] ∧
    (stepEv (runEv initState c1Trace) (.select (some clipFile))).live =
      [] ∧
    (stepEv (runEv initState c1Trace) (.changeEx Exercise.deadlift)).live =
      [] ∧
    (stepEv initState (.select (some clipFile))).nextUrl =
      initState.nextUrl ∧
    (∃ d, Event.settle (Outcome.success okData) =
      Event.settle (Outcome.success d)) :=
  ⟨c1_handle_lifecycle.1 c1Trace,
   c1_handle_lifecycle.2.1 c1Trace,
   c1_handle_lifecycle.2.2.1 c1Trace (some clipFile),
   c1_handle_lifecycle.2.2.2.1 c1Trace Exercise.deadlift,
   c1_handle_lifecycle.2.2.2.2.1 initState (some clipFile),
   c1_handle_lifecycle.2.2.2.2.2.2 c1s4
     (Event.settle (Outcome.success okData)) (by decide)⟩

/-- C2: in every reachable in-flight state progress lies in [0, 90] (so it
never reaches 100 before the response resolves), each estimator tick is
non-decreasing, a successful settlement sets progress to exactly 100 with
status succeeded, the armed reset timer sets progress back to 0 without
touching the status, and the reset delay constant is 1000 ms. -/
theorem c2_progress_estimator :
    (∀ evs, (runEv initState evs).uploading = true →
      0 ≤ (runEv initState evs).progress ∧
      (runEv initState evs).progress ≤ 90) ∧
    (∀ evs r, (runEv initState evs).uploading = true →
      (runEv initState evs).progress ≤
        (stepEv (runEv initState evs) (.tick r)).progress) ∧
    (∀ s d, s.uploading = true →
      (stepEv s (.settle (.success d))).progress = 100 ∧
      (stepEv s (.settle (.success d))).status = UStatus.succeeded) ∧
    (∀ s, s.pendingReset = true →
      (stepEv s .fireReset).progress = 0 ∧
      (stepEv s .fireReset).status = s.status) ∧
    progressResetDelayMs = 1000 := by
  refine ⟨?_, ?_, ?_, ?_, rfl⟩
  · intro evs hu
    exact (inv_reach evs).2.2.2.2.1 hu
  · intro evs r hu
    obtain ⟨_, _, _, h4, h5, _, _⟩ := inv_reach evs
    have hb := h5 hu
    have hi : (runEv initState evs).intervalRunning = true := by
      rw [h4, hu]
    have hstep : stepEv (runEv initState evs) (.tick r) =
        { runEv initState evs with
            progress := tickFn (runEv initState evs).progress r.val } := by
      simp [stepEv, hi]
    rw [hstep]
    exact (tickFn_bounds _ r.val hb.1 hb.2 r.property.1).1
  · intro s d hu
    constructor
    · simp only [stepEv]
      rw [commit_progress]
      simp [settleUpload, hu]
    · simp only [stepEv]
      rw [commit_status]
      simp [settleUpload, hu]
  · intro s hp
    constructor <;> simp [stepEv, fireResetEv, hp]

/-- In-flight state used by the C2 and C5 witnesses. -/
def sInflight : AppState :=
  runEv initState [.select (some clipFile), .click]

/-- Tick increment used by the C2 witness. -/
def rInc : RandInc := ⟨7, by norm_num⟩

/-- C2 witness: the estimator clauses of c2_progress_estimator at concrete
states. -/
theorem c2_progress_estimator_witness :
    (0 ≤ sInflight.progress ∧ sInflight.progress ≤ 90) ∧
    sInflight.progress ≤ (stepEv sInflight (.tick rInc)).progress ∧
    ((stepEv sInflight (.settle (.success okData))).progress = 100 ∧
     (stepEv sInflight (.settle (.success okData))).status =
       UStatus.succeeded) ∧
    ((stepEv (stepEv sInflight (.settle (.success okData)))
        .fireReset).progress = 0 ∧
     (stepEv (stepEv sInflight (.settle (.success okData)))
        .fireReset).status =
       (stepEv sInflight (.settle (.success okData))).status) :=
  ⟨c2_progress_estimator.1 [.select (some clipFile), .click] (by decide),
   c2_progress_estimator.2.1 [.select (some clipFile), .click] rInc
     (by decide),
   c2_progress_estimator.2.2.1 sInflight okData (by decide),
   c2_progress_estimator.2.2.2.1 (stepEv sInflight (.settle (.success okData)))
     (by decide)⟩

/-- C5: while a submission is in flight, a submit click is a no-op — the
state is unchanged and in particular no second request is issued. -/
theorem c5_reentrant_click :
    ∀ s, s.uploading = true →
      clickSubmit s = s ∧ stepEv s .click = s ∧
      (stepEv s .click).requests = s.requests := by
  intro s hu
  have hc : clickSubmit s = s := by simp [clickSubmit, hu]
  have hs : stepEv s .click = s := by
    simp only [stepEv]
    rw [hc]
    exact commitEffect_self s
  exact ⟨hc, hs, by rw [hs]⟩

/-- C5 witness: the re-entrant click no-op at a concrete in-flight state. -/
theorem c5_reentrant_click_witness :
    clickSubmit sInflight = sInflight ∧
    stepEv sInflight .click = sInflight ∧
    (stepEv sInflight .click).requests = sInflight.requests :=
  c5_reentrant_click sInflight (by decide)

/-- C6: on a non-success settlement (non-2xx status or thrown transport
error) of an in-flight submission the estimator is stopped, progress is
reset to 0, the session fails, and the stored feedback, videoUrl and live
handle are left untouched. -/
theorem c6_failure_preserves :
    ∀ s, s.uploading = true →
      ((stepEv s (.settle .httpErr)).status = UStatus.failed ∧
       (stepEv s (.settle .httpErr)).progress = 0 ∧
       (stepEv s (.settle .httpErr)).intervalRunning = false ∧
       (stepEv s (.settle .httpErr)).uploading = false ∧
       (stepEv s (.settle .httpErr)).feedback = s.feedback ∧
       (stepEv s (.settle .httpErr)).videoUrl = s.videoUrl ∧
       (stepEv s (.settle .httpErr)).live = s.live) ∧
      ((stepEv s (.settle .transportErr)).status = UStatus.failed ∧
       (stepEv s (.settle .transportErr)).progress = 0 ∧
       (stepEv s (.settle .transportErr)).intervalRunning = false ∧
       (stepEv s (.settle .transportErr)).uploading = false ∧
       (stepEv s (.settle .transportErr)).feedback = s.feedback ∧
       (stepEv s (.settle .transportErr)).videoUrl = s.videoUrl ∧
       (stepEv s (.settle .transportErr)).live = s.live) := by
  intro s hu
  have hh : stepEv s (.settle .httpErr) =
      { s with uploading := false, progress := 0,
               intervalRunning := false, status := .failed } := by
    simp only [stepEv, settleUpload]
    rw [if_pos (by simp [hu])]
    exact commitEffect_eqUrl rfl
  have ht : stepEv s (.settle .transportErr) =
      { s with progress := 0, uploading := false,
               intervalRunning := false, status := .failed } := by
    simp only [stepEv, settleUpload]
    rw [if_pos (by simp [hu])]
    exact commitEffect_eqUrl rfl
  rw [hh, ht]
  exact ⟨⟨rfl, rfl, rfl, rfl, rfl, rfl, rfl⟩,
         ⟨rfl, rfl, rfl, rfl, rfl, rfl, rfl⟩⟩

/-- In-flight retry state after an earlier success, used by the C6
witness. -/
def sRetry : AppState :=
  runEv initState
    [.select (some clipFile), .click, .settle (.success okData), .click]

/-- C6 witness: the failure-path clauses of c6_failure_preserves at a
concrete in-flight retry state that already holds feedback and a live
preview handle. -/
theorem c6_failure_preserves_witness :
    ((stepEv sRetry (.settle .httpErr)).status = UStatus.failed ∧
     (stepEv sRetry (.settle .httpErr)).progress = 0 ∧
     (stepEv sRetry (.settle .httpErr)).intervalRunning = false ∧
     (stepEv sRetry (.settle .httpErr)).uploading = false ∧
     (stepEv sRetry (.settle .httpErr)).feedback = sRetry.feedback ∧
     (stepEv sRetry (.settle .httpErr)).videoUrl = sRetry.videoUrl ∧
     (stepEv sRetry (.settle .httpErr)).live = sRetry.live) ∧
    ((stepEv sRetry (.settle .transportErr)).status = UStatus.failed ∧
     (stepEv sRetry (.settle .transportErr)).progress = 0 ∧
     (stepEv sRetry (.settle .transportErr)).intervalRunning = false ∧
     (stepEv sRetry (.settle .transportErr)).uploading = false ∧
     (stepEv sRetry (.settle .transportErr)).feedback = sRetry.feedback ∧
     (stepEv sRetry (.settle .transportErr)).videoUrl = sRetry.videoUrl ∧
     (stepEv sRetry (.settle .transportErr)).live = sRetry.live) :=
  c6_failure_preserves sRetry (by decide)

/-- State after selecting the clip, used by the C7 counterexample. -/
def c7Sel : AppState := runEv initState [.select (some clipFile)]

/-- C7 counterexample: the issued multipart request carries the category
value under the field name exercise_type — no field is named category. -/
theorem c7_category_field_counterexample :
    (handleUploadStart c7Sel).requests =
      [{ method := "POST"
         body := [("file", FormValue.file clipFile),
                  ("exercise_type", FormValue.text "squat")] }] ∧
    ((handleUploadStart c7Sel).requests.all
      (fun r => r.body.all (fun kv => kv.1 != "category"))) = true := by
  decide

/-- C7 (amended): every issued request is a POST whose multipart body
carries the binary file under the field name file and an exercise_type
field (not category) naming one of the five enumerated exercise types. -/
theorem c7_request_shape :
    ∀ evs r, r ∈ (runEv initState evs).requests →
      r.method = "POST" ∧
      (∃ f, ("file", FormValue.file f) ∈ r.body) ∧
      (∃ v, ("exercise_type", FormValue.text v) ∈ r.body ∧
        v ∈ exerciseValues) := by
  intro evs r hr
  exact (inv_reach evs).2.2.2.2.2.2 r hr

/-- The request issued by the concrete select-then-click trace. -/
def c7Req : Request :=
  { method := "POST"
    body := [("file", FormValue.file clipFile),
             ("exercise_type", FormValue.text "squat")] }

/-- C7 witness: the request-shape clauses of c7_request_shape at the
concrete issued request. -/
theorem c7_request_shape_witness :
    c7Req.method = "POST" ∧
    (∃ f, ("file", FormValue.file f) ∈ c7Req.body) ∧
    (∃ v, ("exercise_type", FormValue.text v) ∈ c7Req.body ∧
      v ∈ exerciseValues) :=
  c7_request_shape [.select (some clipFile), .click] c7Req (by decide)

/-- C10: invoking the upload handler with no file selected is a complete
no-op — the state (and with it the request list and the estimator flag) is
unchanged, both for the raw handler and for a click event. -/
theorem c10_null_file_noop :
    ∀ s, s.file = none → handleUploadStart s = s ∧ stepEv s .click = s := by
  intro s h
  have h1 : handleUploadStart s = s := by simp [handleUploadStart, h]
  have h2 : clickSubmit s = s := by simp [clickSubmit, h]
  have h3 : stepEv s .click = s := by
    simp only [stepEv]
    rw [h2]
    exact commitEffect_self s
  exact ⟨h1, h3⟩

/-- C10 witness: the null-file no-op at the initial state. -/
theorem c10_null_file_noop_witness :
    handleUploadStart initState = initState ∧
    stepEv initState .click = initState :=
  c10_null_file_noop initState rfl
